import Mathlib

/-!
# Verification of the sales-analytics aggregation engine

A shallow embedding of the four report handlers of `src/server.js`
(time-series, user performance, group performance, trends) together with
the SQL semantics of their queries (joins, grouping, aggregates, window
lag, ordering, limit) and the JavaScript response mappings
(`parseFloat(x) || 0`, `json_agg` null filtering, metric projection).

Conventions of the embedding:
* SQL `date` values are calendar triples `⟨year, month, day⟩`; comparison
  uses the numeric key `y*10000 + m*100 + d`, which agrees with calendar
  order on valid dates.  `DATE_TRUNC` is modelled per granularity; week
  truncation goes through a day-number (civil calendar) conversion and
  truncates to the ISO week Monday, as PostgreSQL does.
* SQL `numeric` values are rationals; a `::numeric(10,2)` cast is
  `round2` (round half away from zero at two decimals).  Nullable SQL
  values are `Option` values.
* PostgreSQL raises on division of a non-null numeric by zero; handlers
  catch every error and answer a generic 500, modelled as
  `Except.error ApiError.internal`.
* JavaScript `parseInt` on a query-string value is `parseIntJs`
  (`none` models `NaN`); a `NaN` value bound as an integer query
  parameter makes the query fail, hence a 500.
* `if (param)` truthiness of a query-string parameter is `truthyParam`.
-/

namespace ActifAI

/-! ## Calendar dates -/

/-- A calendar date as stored in the `sales.date` column. -/
structure Date where
  y : Nat
  m : Nat
  d : Nat
deriving DecidableEq

/-- Numeric comparison key; agrees with calendar order on valid dates. -/
def Date.key (dt : Date) : Nat := dt.y * 10000 + dt.m * 100 + dt.d

/-- SQL `<=` on dates. -/
def dateLe (a b : Date) : Bool := a.key ≤ b.key

/-- SQL `d BETWEEN a AND b` (both ends inclusive). -/
def dateBetween (d a b : Date) : Bool := dateLe a d && dateLe d b

/-- Day number of a date (civil calendar, epoch 0000-03-01), the standard
days-from-civil algorithm restricted to `Nat`-safe years. -/
def toDays (dt : Date) : Nat :=
  let yAdj : Nat := if dt.m ≤ 2 then dt.y - 1 else dt.y
  let era : Nat := yAdj / 400
  let yoe : Nat := yAdj % 400
  let mp : Nat := if 2 < dt.m then dt.m - 3 else dt.m + 9
  let doy : Nat := (153 * mp + 2) / 5 + dt.d - 1
  let doe : Nat := yoe * 365 + yoe / 4 - yoe / 100 + doy
  era * 146097 + doe

/-- Inverse of `toDays` (civil-from-days). -/
def fromDays (n : Nat) : Date :=
  let era : Nat := n / 146097
  let doe : Nat := n % 146097
  let yoe : Nat := (doe - doe / 1460 + doe / 36524 - doe / 146096) / 365
  let yAdj : Nat := yoe + era * 400
  let doy : Nat := doe - (365 * yoe + yoe / 4 - yoe / 100)
  let mp : Nat := (5 * doy + 2) / 153
  let dd : Nat := doy - (153 * mp + 2) / 5 + 1
  let mm : Nat := if mp < 10 then mp + 3 else mp - 9
  ⟨if mm ≤ 2 then yAdj + 1 else yAdj, mm, dd⟩

/-- `DATE_TRUNC('day', ·)`: the identity on dates. -/
def truncDay (dt : Date) : Date := dt

/-- `DATE_TRUNC('month', ·)`: first day of the month. -/
def truncMonth (dt : Date) : Date := ⟨dt.y, dt.m, 1⟩

/-- `DATE_TRUNC('quarter', ·)`: first day of the quarter. -/
def truncQuarter (dt : Date) : Date := ⟨dt.y, 3 * ((dt.m - 1) / 3) + 1, 1⟩

/-- `DATE_TRUNC('year', ·)`: January 1st of the year. -/
def truncYear (dt : Date) : Date := ⟨dt.y, 1, 1⟩

/-- `DATE_TRUNC('week', ·)`: the ISO week Monday.  Mondays have day
numbers congruent to 5 mod 7 (e.g. 2000-01-03 has day number 730427). -/
def truncWeek (dt : Date) : Date :=
  let n := toDays dt
  fromDays (n - (n + 2) % 7)

/-- Dispatch of `DATE_TRUNC('<interval>', ·)` for the validated interval
strings spliced into the query text. -/
def truncInterval (ti : String) (dt : Date) : Date :=
  if ti == "day" then truncDay dt
  else if ti == "week" then truncWeek dt
  else if ti == "quarter" then truncQuarter dt
  else if ti == "year" then truncYear dt
  else truncMonth dt

/-! ## Numeric helpers -/

/-- Rounding half away from zero, as PostgreSQL `numeric` rounding does. -/
def roundHalf (q : ℚ) : Int :=
  if q < 0 then -(Int.floor (-q + 1 / 2)) else Int.floor (q + 1 / 2)

/-- The `::numeric(10,2)` cast: round to two decimal places. -/
def round2 (q : ℚ) : ℚ := (roundHalf (q * 100) : ℚ) / 100

/-- Sum of a list of amounts. -/
def sumAmounts (l : List ℚ) : ℚ := l.foldl (fun a q => a + q) 0

/-- JavaScript `parseFloat(x) || 0` applied to a nullable SQL numeric:
`null` parses to `NaN`, which `|| 0` turns into `0`; the numeric value
`0` is falsy and also maps to `0`; every other numeric is kept. -/
def jsNumOrZero (o : Option ℚ) : ℚ := o.getD 0

/-! ## JavaScript query-parameter handling -/

/-- Value of a digit string. -/
def digitsVal (cs : List Char) : Option Nat :=
  let ds := cs.takeWhile (fun c => c.isDigit)
  if ds.isEmpty then none
  else some (ds.foldl (fun a c => a * 10 + (c.toNat - 48)) 0)

/-- JavaScript `parseInt` on a query-string value: skip leading
whitespace, then an optional sign followed by leading digits; `none`
models `NaN`. -/
def parseIntJs (s : String) : Option Int :=
  match s.toList.dropWhile (fun c => c.isWhitespace) with
  | [] => none
  | c :: rest =>
    if c == '-' then (digitsVal rest).map (fun n => -(n : Int))
    else if c == '+' then (digitsVal rest).map (fun n => (n : Int))
    else (digitsVal (c :: rest)).map (fun n => (n : Int))

/-- JavaScript truthiness of an optional query-string parameter:
present and non-empty. -/
def truthyParam (o : Option String) : Bool :=
  match o with
  | none => false
  | some s => !s.isEmpty

/-- `const validIntervals = ['day', 'week', 'month', 'quarter', 'year']`. -/
def validIntervals : List String := ["day", "week", "month", "quarter", "year"]

/-- `interval = 'month'` destructuring default followed by
`validIntervals.includes(interval) ? interval : 'month'`. -/
def timeIntervalOf (interval : Option String) : String :=
  let i := interval.getD ("month")
  if validIntervals.contains i then i else "month"

/-- Whether the supplied interval parameter is present and valid. -/
def isValidIntervalParam (i : Option String) : Bool :=
  match i with
  | none => false
  | some s => validIntervals.contains s

/-- `startDate = '2021-01-01'` destructuring default. -/
def resolvedStart (sd : Option Date) : Date := sd.getD ⟨2021, 1, 1⟩

/-- `const end = endDate || <today>` (the current date is injected). -/
def resolvedEnd (ed : Option Date) (today : Date) : Date := ed.getD today

/-! ## Data model (record store) -/

/-- A row of the `sales` table. -/
structure Sale where
  id : Int
  user_id : Int
  amount : ℚ
  date : Date
deriving DecidableEq

/-- A row of the `users` table. -/
structure User where
  id : Int
  name : String
  role : String
deriving DecidableEq

/-- A row of the `groups` table. -/
structure Group where
  id : Int
  name : String
deriving DecidableEq

/-- A row of the `user_groups` membership table. -/
structure UserGroup where
  user_id : Int
  group_id : Int
deriving DecidableEq

/-- The queryable dataset. -/
structure DB where
  sales : List Sale
  users : List User
  groups : List Group
  user_groups : List UserGroup
deriving DecidableEq

/-- Every handler catches every query failure and answers a generic
500 Internal server error. -/
inductive ApiError where
  | internal
deriving DecidableEq

/-! ## 1. Time-series endpoint (`GET /api/sales-analytics/time-series`) -/

/-- Query parameters of the time-series endpoint (`req.query`). -/
structure TsParams where
  startDate : Option Date := none
  endDate : Option Date := none
  interval : Option String := none
  userId : Option String := none
  groupId : Option String := none
  metric : Option String := none
deriving DecidableEq

/-- `if (userId) params.push(parseInt(userId))`: `some` when the clause
is pushed, the inner `none` models a `NaN` parameter. -/
def tsUidParam (p : TsParams) : Option (Option Int) :=
  if truthyParam p.userId then some (parseIntJs (p.userId.getD (""))) else none

/-- `if (groupId) { JOIN user_groups; params.push(parseInt(groupId)) }`. -/
def tsGidParam (p : TsParams) : Option (Option Int) :=
  if truthyParam p.groupId then some (parseIntJs (p.groupId.getD (""))) else none

/-- Row set of
`FROM sales s JOIN users u ON s.user_id = u.id [JOIN user_groups ug ON
u.id = ug.user_id] WHERE s.date >= $1 AND s.date <= $2 [AND s.user_id =
$k] [AND ug.group_id = $k]`, one element per joined row (the aggregates
only read the `s` columns, but join multiplicity is preserved).
`gid = some g` activates both the `user_groups` join and its clause. -/
def tsMatchRows (db : DB) (start endD : Date) (uid gid : Option Int) : List Sale :=
  db.sales.flatMap (fun s =>
    if dateBetween s.date start endD &&
        (match uid with
         | none => true
         | some n => s.user_id == n) then
      (db.users.filter (fun u => u.id == s.user_id)).flatMap (fun _ =>
        match gid with
        | none => [s]
        | some g =>
          (db.user_groups.filter
            (fun ug => ug.user_id == s.user_id && ug.group_id == g)).map
            (fun _ => s))
    else [])

/-- Result row of the time-series `GROUP BY DATE_TRUNC(...)` query. -/
structure TsAggRow where
  period : Date
  sale_count : Nat
  total_revenue : Option ℚ
  avg_revenue : Option ℚ
  active_users : Nat
deriving DecidableEq

/-- `period ASC` ordering relation for the `ORDER BY` clauses. -/
def periodAscRel (a b : Date) : Prop := (dateLe a b) = true

instance : DecidableRel periodAscRel := fun a b => by
  unfold periodAscRel; infer_instance

/-- The time-series aggregation: group the joined rows by truncated date,
aggregate each bucket, and order buckets by `period ASC`. -/
def tsAggRows (db : DB) (ti : String) (start endD : Date)
    (uid gid : Option Int) : List TsAggRow :=
  let rows := tsMatchRows db start endD uid gid
  let keys := ((rows.map (fun s => truncInterval ti s.date)).dedup).insertionSort periodAscRel
  keys.map (fun k =>
    let b := rows.filter (fun s => truncInterval ti s.date == k)
    let amounts := b.map (fun s => s.amount)
    { period := k
      sale_count := b.length
      total_revenue := if b.isEmpty then none else some (sumAmounts amounts)
      avg_revenue :=
        if b.isEmpty then none
        else some (round2 (sumAmounts amounts / (b.length : ℚ)))
      active_users := ((b.map (fun s => s.user_id)).dedup).length })

/-- A response row of the time-series endpoint; `none` in a field means
the metric projection omitted it. -/
structure TsOutRow where
  period : Date
  totalRevenue : Option ℚ
  averageRevenue : Option ℚ
  saleCount : Option Nat
  activeUsers : Option Nat
deriving DecidableEq

/-- The response mapping with metric projection.  `total_revenue` and
`avg_revenue` are never SQL-null here (every bucket is non-empty), so
`parseFloat` is the identity on them; `getD 0` is a harmless default. -/
def tsProject (metric : String) (r : TsAggRow) : TsOutRow :=
  { period := r.period
    totalRevenue :=
      if metric == "all" || metric == "totalRevenue" then
        some (r.total_revenue.getD 0)
      else none
    averageRevenue :=
      if metric == "all" || metric == "avgRevenue" then
        some (r.avg_revenue.getD 0)
      else none
    saleCount :=
      if metric == "all" || metric == "saleCount" then some r.sale_count
      else none
    activeUsers := if metric == "all" then some r.active_users else none }

/-- The time-series handler.  A `NaN` id parameter (non-numeric
`userId`/`groupId`) fails inside the query (PostgreSQL rejects `NaN`
for an integer comparison), which the catch block turns into a 500. -/
def timeSeriesHandler (db : DB) (today : Date) (p : TsParams) :
    Except ApiError (List TsOutRow) :=
  if tsUidParam p == some none || tsGidParam p == some none then
    .error .internal
  else
    .ok ((tsAggRows db (timeIntervalOf p.interval)
        (resolvedStart p.startDate) (resolvedEnd p.endDate today)
        ((tsUidParam p).bind id) ((tsGidParam p).bind id)).map
      (tsProject (p.metric.getD ("all"))))

/-! ## 4. Trends endpoint (`GET /api/sales-analytics/trends`) -/

/-- Query parameters of the trends endpoint. -/
structure TrendParams where
  startDate : Option Date := none
  endDate : Option Date := none
  interval : Option String := none
deriving DecidableEq

/-- A row of the `stats` CTE (before the `LAG` window column). -/
structure TrendStatsRow where
  period : Date
  total_revenue : ℚ
  sale_count : Nat
deriving DecidableEq

/-- The `stats` CTE: bucket the date-filtered sales (no join) by
truncated date; buckets ordered by `period` (the window `ORDER BY` and
the final `ORDER BY period ASC` agree). -/
def trendStats (db : DB) (ti : String) (start endD : Date) :
    List TrendStatsRow :=
  let rows := db.sales.filter (fun s => dateBetween s.date start endD)
  let keys := ((rows.map (fun s => truncInterval ti s.date)).dedup).insertionSort periodAscRel
  keys.map (fun k =>
    let b := rows.filter (fun s => truncInterval ti s.date == k)
    { period := k
      total_revenue := sumAmounts (b.map (fun s => s.amount))
      sale_count := b.length })

/-- A response row of the trends endpoint (`growthPercentage` is null
exactly when the SQL column is). -/
structure TrendOutRow where
  period : Date
  totalRevenue : ℚ
  saleCount : Nat
  growthPercentage : Option ℚ
deriving DecidableEq

/-- The main trend query over the ordered stats rows: `prev` carries the
`LAG(SUM(s.amount))` value.  `CASE WHEN prev_revenue IS NOT NULL THEN
((total_revenue - prev_revenue) / prev_revenue * 100)::numeric(10,2)
ELSE NULL END`; a zero `prev_revenue` is not `NULL`, so the division is
evaluated and PostgreSQL raises division-by-zero, caught as a 500. -/
def trendGrowthRows (prev : Option ℚ) :
    List TrendStatsRow → Except ApiError (List TrendOutRow)
  | [] => .ok []
  | r :: rest =>
    match prev with
    | none =>
      (trendGrowthRows (some r.total_revenue) rest).map
        (fun l => ⟨r.period, r.total_revenue, r.sale_count, none⟩ :: l)
    | some pv =>
      if pv == 0 then .error .internal
      else
        (trendGrowthRows (some r.total_revenue) rest).map
          (fun l =>
            ⟨r.period, r.total_revenue, r.sale_count,
              some (round2 ((r.total_revenue - pv) / pv * 100))⟩ :: l)

/-- The trends handler. -/
def trendsHandler (db : DB) (today : Date) (p : TrendParams) :
    Except ApiError (List TrendOutRow) :=
  trendGrowthRows none
    (trendStats db (timeIntervalOf p.interval)
      (resolvedStart p.startDate) (resolvedEnd p.endDate today))

/-! ## 2. Users endpoint (`GET /api/sales-analytics/users`) -/

/-- Query parameters of the users endpoint. -/
structure UsersParams where
  startDate : Option Date := none
  endDate : Option Date := none
  limit : Option String := none
deriving DecidableEq

/-- `GROUP BY u.id, u.name, u.role` grouping key. -/
def userKey (u : User) : Int × String × String := (u.id, u.name, u.role)

/-- `LEFT JOIN sales s ON u.id = s.user_id AND s.date BETWEEN $1 AND $2`:
the matched sale of each joined row for user `u` (`none` preserves the
user when nothing matches). -/
def userSaleCells (db : DB) (start endD : Date) (u : User) :
    List (Option Sale) :=
  let ms := db.sales.filter
    (fun s => s.user_id == u.id && dateBetween s.date start endD)
  if ms.isEmpty then [none] else ms.map some

/-- `LEFT JOIN user_groups ug ON u.id = ug.user_id`. -/
def userUgCells (db : DB) (u : User) : List (Option UserGroup) :=
  let ms := db.user_groups.filter (fun ug => ug.user_id == u.id)
  if ms.isEmpty then [none] else ms.map some

/-- `LEFT JOIN groups g ON ug.group_id = g.id` (null `ug` propagates). -/
def ugGroupCells (db : DB) : Option UserGroup → List (Option Group)
  | none => [none]
  | some ug =>
    let ms := db.groups.filter (fun g => g.id == ug.group_id)
    if ms.isEmpty then [none] else ms.map some

/-- All joined rows contributed by one user: the product of its three
left joins (their conditions are mutually independent). -/
def userJoinCells (db : DB) (start endD : Date) (u : User) :
    List (Option Sale × Option Group) :=
  (userSaleCells db start endD u).flatMap (fun s? =>
    (userUgCells db u).flatMap (fun ug? =>
      (ugGroupCells db ug?).map (fun g? => (s?, g?))))

/-- The full joined row set of the users query. -/
def usersJoined (db : DB) (start endD : Date) :
    List (User × Option Sale × Option Group) :=
  db.users.flatMap (fun u =>
    (userJoinCells db start endD u).map (fun c => (u, c)))

/-- Result row of the users `GROUP BY` query; `groups_agg` is the
`json_agg(g.name)` JSON array (one entry per joined row, nulls kept). -/
structure UserAggRow where
  id : Int
  name : String
  role : String
  sale_count : Nat
  total_revenue : Option ℚ
  avg_revenue : Option ℚ
  active_days : Nat
  groups_agg : List (Option String)
deriving DecidableEq

/-- Aggregates of the bucket of one grouping key. -/
def userAggFor (db : DB) (start endD : Date) (k : Int × String × String) :
    UserAggRow :=
  let rows := (usersJoined db start endD).filter
    (fun r => userKey r.1 == k)
  let saleVals := rows.filterMap (fun r => r.2.1)
  let amounts := saleVals.map (fun s => s.amount)
  { id := k.1
    name := k.2.1
    role := k.2.2
    sale_count := saleVals.length
    total_revenue :=
      if saleVals.isEmpty then none else some (sumAmounts amounts)
    avg_revenue :=
      if saleVals.isEmpty then none
      else some (round2 (sumAmounts amounts / (saleVals.length : ℚ)))
    active_days := ((saleVals.map (fun s => truncDay s.date)).dedup).length
    groups_agg := rows.map (fun r => r.2.2.map (fun g => g.name)) }

/-- The grouped (unordered) result rows of the users query. -/
def usersAggRows (db : DB) (start endD : Date) : List UserAggRow :=
  (((usersJoined db start endD).map (fun r => userKey r.1)).dedup).map
    (userAggFor db start endD)

/-- `ORDER BY total_revenue DESC NULLS LAST` comparison on nullable
revenues: descending among non-null values, nulls sorted last. -/
def revDescNullsLast (a b : Option ℚ) : Bool :=
  match a, b with
  | some x, some y => y ≤ x
  | some _, none => true
  | none, some _ => false
  | none, none => true

/-- The users `ORDER BY` relation. -/
def userRevRel (a b : UserAggRow) : Prop :=
  revDescNullsLast a.total_revenue b.total_revenue = true

instance : DecidableRel userRevRel := fun a b => by
  unfold userRevRel; infer_instance

/-- The ordered result rows of the users query (before `LIMIT`). -/
def usersSorted (db : DB) (start endD : Date) : List UserAggRow :=
  (usersAggRows db start endD).insertionSort userRevRel

/-- A response row of the users endpoint; `totalRevenue` and
`averageRevenue` hold the emitted JSON value (`none` would be JSON
null — the mapping in fact always emits a number). -/
structure UserOutRow where
  userId : Int
  name : String
  role : String
  saleCount : Nat
  totalRevenue : Option ℚ
  averageRevenue : Option ℚ
  activeDays : Nat
  groups : List String
deriving DecidableEq

/-- The users response mapping: `parseInt` on counts,
`parseFloat(x) || 0` on revenues, `row.groups.filter(g => g !== null)`
on the JSON group-name array. -/
def mapUserRow (r : UserAggRow) : UserOutRow :=
  { userId := r.id
    name := r.name
    role := r.role
    saleCount := r.sale_count
    totalRevenue := some (jsNumOrZero r.total_revenue)
    averageRevenue := some (jsNumOrZero r.avg_revenue)
    activeDays := r.active_days
    groups := r.groups_agg.filterMap (fun g? => g?) }

/-- `limit = 10` destructuring default followed by `parseInt(limit)`. -/
def resolvedLimit (limit : Option String) : Option Int :=
  match limit with
  | none => some 10
  | some s => parseIntJs s

/-- The mapped rows of the users report before `LIMIT` truncation. -/
def usersPreLimit (db : DB) (today : Date) (p : UsersParams) :
    List UserOutRow :=
  (usersSorted db (resolvedStart p.startDate)
    (resolvedEnd p.endDate today)).map mapUserRow

/-- The users handler.  A `NaN` or negative `LIMIT` parameter fails in
PostgreSQL, caught as a 500. -/
def usersHandler (db : DB) (today : Date) (p : UsersParams) :
    Except ApiError (List UserOutRow) :=
  match resolvedLimit p.limit with
  | none => .error .internal
  | some l =>
    if l < 0 then .error .internal
    else
      .ok (((usersSorted db (resolvedStart p.startDate)
          (resolvedEnd p.endDate today)).take l.toNat).map mapUserRow)

/-! ## 3. Groups endpoint (`GET /api/sales-analytics/groups`) -/

/-- Query parameters of the groups endpoint. -/
structure GroupsParams where
  startDate : Option Date := none
  endDate : Option Date := none
deriving DecidableEq

/-- `GROUP BY g.id, g.name` grouping key. -/
def groupKey (g : Group) : Int × String := (g.id, g.name)

/-- `LEFT JOIN user_groups ug ON g.id = ug.group_id`. -/
def groupUgCells (db : DB) (g : Group) : List (Option UserGroup) :=
  let ms := db.user_groups.filter (fun ug => ug.group_id == g.id)
  if ms.isEmpty then [none] else ms.map some

/-- `LEFT JOIN sales s ON ug.user_id = s.user_id AND s.date BETWEEN $1
AND $2` (null `ug` propagates: its row keeps a null sale). -/
def ugSaleCells (db : DB) (start endD : Date) :
    Option UserGroup → List (Option UserGroup × Option Sale)
  | none => [(none, none)]
  | some ug =>
    let ms := db.sales.filter
      (fun s => s.user_id == ug.user_id && dateBetween s.date start endD)
    if ms.isEmpty then [(some ug, none)]
    else ms.map (fun s => (some ug, some s))

/-- All joined rows contributed by one group. -/
def groupJoinCells (db : DB) (start endD : Date) (g : Group) :
    List (Option UserGroup × Option Sale) :=
  (groupUgCells db g).flatMap (ugSaleCells db start endD)

/-- The full joined row set of the groups query. -/
def groupsJoined (db : DB) (start endD : Date) :
    List (Group × Option UserGroup × Option Sale) :=
  db.groups.flatMap (fun g =>
    (groupJoinCells db start endD g).map (fun c => (g, c)))

/-- Result row of the groups `GROUP BY` query. -/
structure GroupAggRow where
  id : Int
  name : String
  member_count : Nat
  sale_count : Nat
  total_revenue : Option ℚ
  avg_revenue_per_sale : Option ℚ
  avg_revenue_per_member : Option ℚ
deriving DecidableEq

/-- Aggregates of the bucket of one grouping key.
`SUM(s.amount)::numeric / COUNT(DISTINCT ug.user_id)`: SQL division is
strict, so a null sum gives null; a non-null sum forces at least one
membership row, so the member count divisor is then nonzero (the
division-by-zero branch is unreachable and modelled as null). -/
def groupAggFor (db : DB) (start endD : Date) (k : Int × String) :
    GroupAggRow :=
  let rows := (groupsJoined db start endD).filter
    (fun r => groupKey r.1 == k)
  let ugVals := rows.filterMap (fun r => r.2.1)
  let saleVals := rows.filterMap (fun r => r.2.2)
  let amounts := saleVals.map (fun s => s.amount)
  let mc := ((ugVals.map (fun ug => ug.user_id)).dedup).length
  let total : Option ℚ :=
    if saleVals.isEmpty then none else some (sumAmounts amounts)
  { id := k.1
    name := k.2
    member_count := mc
    sale_count := saleVals.length
    total_revenue := total
    avg_revenue_per_sale :=
      total.map (fun t => round2 (t / (saleVals.length : ℚ)))
    avg_revenue_per_member :=
      total.bind (fun t => if mc == 0 then none else some (t / (mc : ℚ))) }

/-- The grouped (unordered) result rows of the groups query. -/
def groupsAggRows (db : DB) (start endD : Date) : List GroupAggRow :=
  (((groupsJoined db start endD).map (fun r => groupKey r.1)).dedup).map
    (groupAggFor db start endD)

/-- The groups `ORDER BY` relation. -/
def groupRevRel (a b : GroupAggRow) : Prop :=
  revDescNullsLast a.total_revenue b.total_revenue = true

instance : DecidableRel groupRevRel := fun a b => by
  unfold groupRevRel; infer_instance

/-- The ordered result rows of the groups query (no `LIMIT`). -/
def groupsSorted (db : DB) (start endD : Date) : List GroupAggRow :=
  (groupsAggRows db start endD).insertionSort groupRevRel

/-- A response row of the groups endpoint. -/
structure GroupOutRow where
  groupId : Int
  name : String
  memberCount : Nat
  saleCount : Nat
  totalRevenue : Option ℚ
  avgRevenuePerSale : Option ℚ
  avgRevenuePerMember : Option ℚ
deriving DecidableEq

/-- The groups response mapping (`parseFloat(x) || 0` on the three
nullable numerics). -/
def mapGroupRow (r : GroupAggRow) : GroupOutRow :=
  { groupId := r.id
    name := r.name
    memberCount := r.member_count
    saleCount := r.sale_count
    totalRevenue := some (jsNumOrZero r.total_revenue)
    avgRevenuePerSale := some (jsNumOrZero r.avg_revenue_per_sale)
    avgRevenuePerMember := some (jsNumOrZero r.avg_revenue_per_member) }

/-- The groups handler (it never fails). -/
def groupsHandler (db : DB) (today : Date) (p : GroupsParams) :
    Except ApiError (List GroupOutRow) :=
  .ok ((groupsSorted db (resolvedStart p.startDate)
    (resolvedEnd p.endDate today)).map mapGroupRow)

/-- The null-filtered group names of one user's membership join (this
list does not read the request's date range). -/
def userGroupNamesList (db : DB) (u : User) : List String :=
  (userUgCells db u).flatMap (fun ug? =>
    (ugGroupCells db ug?).filterMap (fun g? => g?.map (fun g => g.name)))

/-! ## Concrete datasets used in witnesses and counterexamples -/

/-- An injected current date for concrete runs. -/
def todayRef : Date := ⟨2025, 1, 1⟩

/-- Trend data whose first bucket has revenue 0 (one zero-amount sale in
January, one sale of 100 in February). -/
def dbTrendZero : DB :=
  { sales := [⟨1, 1, 0, ⟨2021, 1, 5⟩⟩, ⟨2, 1, 100, ⟨2021, 2, 5⟩⟩]
    users := [⟨1, "A", "Agent"⟩]
    groups := []
    user_groups := [] }

/-- Trend data with two non-zero months (January 60813, February 16562). -/
def dbTrendTwo : DB :=
  { sales := [⟨1, 1, 60813, ⟨2021, 1, 5⟩⟩, ⟨2, 1, 16562, ⟨2021, 2, 5⟩⟩]
    users := [⟨1, "A", "Agent"⟩]
    groups := []
    user_groups := [] }

/-- Default (absent) trend query parameters. -/
def trendDefaults : TrendParams := {}

/-- Expected trend output of `dbTrendTwo`. -/
def trendTwoRows : List TrendOutRow :=
  [⟨⟨2021, 1, 1⟩, 60813, 1, none⟩,
   ⟨⟨2021, 2, 1⟩, 16562, 1, some (-7277 / 100)⟩]

/-- One user, no sales at all. -/
def dbOneUserNoSales : DB :=
  { sales := []
    users := [⟨1, "A", "Agent"⟩]
    groups := []
    user_groups := [] }

/-- Default (absent) users query parameters. -/
def usersDefaults : UsersParams := {}

/-- Expected users-report row for the zero-sale user. -/
def zeroSaleOutRow : UserOutRow := ⟨1, "A", "Agent", 0, some 0, some 0, 0, []⟩

/-- One group with no members and no sales. -/
def dbGroupNoMembers : DB :=
  { sales := []
    users := []
    groups := [⟨1, "Empty"⟩]
    user_groups := [] }

/-- Default (absent) groups query parameters. -/
def groupsDefaults : GroupsParams := {}

/-- Expected groups-report row for the member-less group. -/
def emptyGroupOutRow : GroupOutRow := ⟨1, "Empty", 0, 0, some 0, some 0, some 0⟩

/-- One group with one member who made one sale of 30. -/
def dbGroupOneMember : DB :=
  { sales := [⟨1, 1, 30, ⟨2021, 3, 10⟩⟩]
    users := [⟨1, "A", "Agent"⟩]
    groups := [⟨1, "G"⟩]
    user_groups := [⟨1, 1⟩] }

/-- The empty dataset. -/
def dbEmpty : DB := { sales := [], users := [], groups := [], user_groups := [] }

/-- A time-series request with a non-numeric `userId`. -/
def tsParamsBadUserId : TsParams := { userId := some ("abc") }

/-- One user in one group with two January sales. -/
def dbUserTwoSalesOneGroup : DB :=
  { sales := [⟨1, 1, 10, ⟨2021, 1, 5⟩⟩, ⟨2, 1, 20, ⟨2021, 1, 6⟩⟩]
    users := [⟨1, "A", "Agent"⟩]
    groups := [⟨1, "G"⟩]
    user_groups := [⟨1, 1⟩] }

/-- Expected users-report row of `dbUserTwoSalesOneGroup`: the group name
appears once per joined sale row. -/
def dupGroupsOutRow : UserOutRow :=
  ⟨1, "A", "Agent", 2, some 30, some 15, 2, ["G", "G"]⟩

/-- One sale in the middle of January. -/
def dbOneMidMonthSale : DB :=
  { sales := [⟨1, 1, 10, ⟨2021, 1, 15⟩⟩]
    users := [⟨1, "A", "Agent"⟩]
    groups := []
    user_groups := [] }

/-- A date range starting mid-January (after the month bucket start). -/
def tsParamsMidJan : TsParams :=
  { startDate := some ⟨2021, 1, 10⟩, endDate := some ⟨2021, 2, 28⟩ }

/-- Expected time-series output row of `dbOneMidMonthSale` under
`tsParamsMidJan`: its period precedes the requested start date. -/
def midMonthOutRow : TsOutRow := ⟨⟨2021, 1, 1⟩, some 10, some 10, some 1, some 1⟩

/-- The aggregate row behind `midMonthOutRow`. -/
def midMonthAggRow : TsAggRow := ⟨⟨2021, 1, 1⟩, 1, some 10, some 10, 1⟩

/-- Two users, one with a sale of 50. -/
def dbTwoUsers : DB :=
  { sales := [⟨1, 1, 50, ⟨2021, 1, 5⟩⟩]
    users := [⟨1, "A", "Agent"⟩, ⟨2, "B", "Agent"⟩]
    groups := []
    user_groups := [] }

/-- A users request with `limit=1`. -/
def usersLimitOne : UsersParams := { limit := some ("1") }

/-- A users request over a date range containing none of the sales. -/
def usersNarrow : UsersParams :=
  { startDate := some ⟨2022, 1, 1⟩, endDate := some ⟨2022, 2, 1⟩ }

/-- Expected users-report row of `dbUserTwoSalesOneGroup` under
`usersNarrow`: with no matching sale the group name appears once. -/
def narrowOutRow : UserOutRow := ⟨1, "A", "Agent", 0, some 0, some 0, 0, ["G"]⟩

/-- A time-series request with an invalid interval value. -/
def tsParamsBadInterval : TsParams := { interval := some ("fortnight") }

/-- A trends request with an invalid interval value. -/
def trendParamsBadInterval : TrendParams := { interval := some ("fortnight") }

/-! ## General list lemmas -/

theorem flatMap_const_eq {α β : Type} (l : List α) (t : List β) :
    (l.flatMap (fun _ => t)) = (List.replicate l.length t).flatten := by
  induction l with
  | nil => rfl
  | cons a l ih => simp [List.flatMap_cons, List.replicate_succ, ih]

theorem insert_insert {α : Type} [DecidableEq α] (a : α) (l : List α) :
    List.insert a (List.insert a l) = List.insert a l := by
  by_cases h : a ∈ l
  · rw [List.insert_of_mem h, List.insert_of_mem h]
  · rw [List.insert_of_not_mem h]
    exact List.insert_of_mem (List.mem_cons_self a l)

theorem replicate_union {α : Type} [DecidableEq α] (n : Nat) (a : α)
    (l : List α) (hn : n ≠ 0) :
    (List.replicate n a) ∪ l = List.insert a l := by
  induction n with
  | zero => exact absurd rfl hn
  | succ m ih =>
    by_cases hm : m = 0
    · subst hm; rfl
    · show List.insert a ((List.replicate m a) ∪ l) = _
      rw [ih hm, insert_insert]

/-- A `flatMap` whose blocks vanish away from the (unique) key of `u`
collapses to the block of `u`. -/
theorem flatMap_single {α β κ : Type} [DecidableEq κ] (key : α → κ)
    (G : α → List β) (l : List α) (u : α) (hul : u ∈ l)
    (hnd : (l.map key).Nodup)
    (hg : ∀ a ∈ l, key a ≠ key u → G a = []) :
    l.flatMap G = G u := by
  induction l with
  | nil => cases hul
  | cons a t ih =>
    rw [List.map_cons, List.nodup_cons] at hnd
    rcases List.mem_cons.mp hul with rfl | hut
    · have ht : ∀ x ∈ t, G x = [] := by
        intro x hx
        refine hg x (List.mem_cons_of_mem _ hx) (fun hk => hnd.1 ?_)
        exact hk ▸ List.mem_map_of_mem key hx
      have : t.flatMap G = [] := List.flatMap_eq_nil_iff.mpr ht
      simp [List.flatMap_cons, this]
    · have hka : key a ≠ key u := by
        intro hk
        exact hnd.1 (hk ▸ List.mem_map_of_mem key hut)
      have hga : G a = [] := hg a (List.mem_cons_self a t) hka
      rw [List.flatMap_cons, hga, List.nil_append]
      exact ih hut hnd.2 (fun x hx => hg x (List.mem_cons_of_mem _ hx))

/-- Deduplicated keys of a blocked list with non-empty constant-key
blocks are the deduplicated keys of the block owners. -/
theorem dedup_flatMap_const {α β κ : Type} [DecidableEq κ]
    (l : List α) (g : α → List β) (f : α → κ)
    (hne : ∀ a ∈ l, g a ≠ []) :
    (l.flatMap (fun a => (g a).map (fun _ => f a))).dedup =
      (l.map f).dedup := by
  induction l with
  | nil => rfl
  | cons a t ih =>
    rw [List.flatMap_cons, List.dedup_append, List.map_const',
      List.map_cons]
    have hlen : (g a).length ≠ 0 := by
      intro h
      exact hne a (List.mem_cons_self a t) (List.length_eq_zero.mp h)
    rw [replicate_union _ _ _ hlen,
      ih (fun x hx => hne x (List.mem_cons_of_mem _ hx))]
    by_cases hm : f a ∈ (t.map f).dedup
    · rw [List.insert_of_mem hm,
        List.dedup_cons_of_mem (List.mem_dedup.mp hm)]
    · rw [List.insert_of_not_mem hm,
        List.dedup_cons_of_not_mem (fun h => hm (List.mem_dedup.mpr h))]

/-! ## Properties of the `ORDER BY ... DESC NULLS LAST` relation -/

theorem revDescNullsLast_total (a b : Option ℚ) :
    revDescNullsLast a b = true ∨ revDescNullsLast b a = true := by
  cases a with
  | none =>
    cases b with
    | none => left; rfl
    | some y => right; rfl
  | some x =>
    cases b with
    | none => left; rfl
    | some y =>
      rcases le_total x y with h | h
      · right; simpa [revDescNullsLast] using h
      · left; simpa [revDescNullsLast] using h

theorem revDescNullsLast_trans {a b c : Option ℚ}
    (h1 : revDescNullsLast a b = true) (h2 : revDescNullsLast b c = true) :
    revDescNullsLast a c = true := by
  cases a with
  | none =>
    cases b with
    | none => exact h2
    | some y => exact absurd h1 (by simp [revDescNullsLast])
  | some x =>
    cases c with
    | none => rfl
    | some z =>
      cases b with
      | none => exact absurd h2 (by simp [revDescNullsLast])
      | some y =>
        simp only [revDescNullsLast, decide_eq_true_eq] at h1 h2 ⊢
        exact le_trans h2 h1

instance : IsTotal UserAggRow userRevRel :=
  ⟨fun a b => revDescNullsLast_total a.total_revenue b.total_revenue⟩

instance : IsTrans UserAggRow userRevRel :=
  ⟨fun _ _ _ h1 h2 => revDescNullsLast_trans h1 h2⟩

instance : IsTotal GroupAggRow groupRevRel :=
  ⟨fun a b => revDescNullsLast_total a.total_revenue b.total_revenue⟩

instance : IsTrans GroupAggRow groupRevRel :=
  ⟨fun _ _ _ h1 h2 => revDescNullsLast_trans h1 h2⟩

/-! ## Structural lemmas about the embedded queries -/

theorem userSaleCells_ne_nil (db : DB) (start endD : Date) (u : User) :
    userSaleCells db start endD u ≠ [] := by
  simp only [userSaleCells]
  split
  · simp
  · simp_all [List.isEmpty_iff]

theorem userUgCells_ne_nil (db : DB) (u : User) :
    userUgCells db u ≠ [] := by
  simp only [userUgCells]
  split
  · simp
  · simp_all [List.isEmpty_iff]

theorem ugGroupCells_ne_nil (db : DB) (ug? : Option UserGroup) :
    ugGroupCells db ug? ≠ [] := by
  cases ug? with
  | none => simp [ugGroupCells]
  | some ug =>
    simp only [ugGroupCells]
    split
    · simp
    · simp_all [List.isEmpty_iff]

theorem userJoinCells_ne_nil (db : DB) (start endD : Date) (u : User) :
    userJoinCells db start endD u ≠ [] := by
  unfold userJoinCells
  rw [Ne, List.flatMap_eq_nil_iff]
  intro hall
  rcases List.exists_mem_of_ne_nil _ (userSaleCells_ne_nil db start endD u)
    with ⟨s?, hs⟩
  have := hall s? hs
  rw [List.flatMap_eq_nil_iff] at this
  rcases List.exists_mem_of_ne_nil _ (userUgCells_ne_nil db u) with ⟨ug?, hug⟩
  have := this ug? hug
  rcases List.exists_mem_of_ne_nil _ (ugGroupCells_ne_nil db ug?) with ⟨g?, hgm⟩
  simp only [List.map_eq_nil_iff] at this
  rw [this] at hgm
  cases hgm

theorem groupUgCells_ne_nil (db : DB) (g : Group) :
    groupUgCells db g ≠ [] := by
  simp only [groupUgCells]
  split
  · simp
  · simp_all [List.isEmpty_iff]

theorem ugSaleCells_ne_nil (db : DB) (start endD : Date)
    (ug? : Option UserGroup) : ugSaleCells db start endD ug? ≠ [] := by
  cases ug? with
  | none => simp [ugSaleCells]
  | some ug =>
    simp only [ugSaleCells]
    split
    · simp
    · simp_all [List.isEmpty_iff]

theorem groupJoinCells_ne_nil (db : DB) (start endD : Date) (g : Group) :
    groupJoinCells db start endD g ≠ [] := by
  unfold groupJoinCells
  rw [Ne, List.flatMap_eq_nil_iff]
  intro hall
  rcases List.exists_mem_of_ne_nil _ (groupUgCells_ne_nil db g) with ⟨ug?, hug⟩
  exact ugSaleCells_ne_nil db start endD ug? (hall ug? hug)

/-- Every row of the time-series join comes from a stored sale that
passes the date-range filter. -/
theorem tsMatchRows_mem {db : DB} {start endD : Date}
    {uid gid : Option Int} {s : Sale}
    (hs : s ∈ tsMatchRows db start endD uid gid) :
    s ∈ db.sales ∧ dateBetween s.date start endD = true := by
  unfold tsMatchRows at hs
  rw [List.mem_flatMap] at hs
  rcases hs with ⟨s0, hs0, hmem⟩
  split at hmem
  case isTrue hcond =>
    rw [List.mem_flatMap] at hmem
    rcases hmem with ⟨u, _, hmem⟩
    have hs0s : s = s0 := by
      cases gid with
      | none => exact List.mem_singleton.mp hmem
      | some g =>
        rcases List.mem_map.mp hmem with ⟨ug, _, hEq⟩
        exact hEq.symm
    subst hs0s
    exact ⟨hs0, ((Bool.and_eq_true _ _).mp hcond).1⟩
  case isFalse => cases hmem

/-- Shape of a successful run of the growth computation: one output row
per stats row, and the growth column is null exactly on the first row of
a run started without a lag value. -/
theorem trendGrowthRows_ok (l : List TrendStatsRow) :
    ∀ (prev : Option ℚ) (out : List TrendOutRow),
      trendGrowthRows prev l = .ok out →
      out.length = l.length ∧
        ∀ i (h : i < out.length),
          ((out.get ⟨i, h⟩).growthPercentage = none ↔ (i = 0 ∧ prev = none)) := by
  induction l with
  | nil =>
    intro prev out hok
    cases hok
    exact ⟨rfl, fun i h => absurd h (Nat.not_lt_zero i)⟩
  | cons r rest ih =>
    intro prev out hok
    cases prev with
    | none =>
      simp only [trendGrowthRows] at hok
      cases hrec : trendGrowthRows (some r.total_revenue) rest with
      | error e => rw [hrec] at hok; cases hok
      | ok l2 =>
        rw [hrec] at hok
        cases hok
        rcases ih (some r.total_revenue) l2 hrec with ⟨hlen, hall⟩
        refine ⟨by simpa using hlen, ?_⟩
        intro i h
        cases i with
        | zero => simp
        | succ j =>
          have hj : j < l2.length := by simpa using h
          have := hall j hj
          simp only [List.length_cons, List.get] at this ⊢
          rw [this]
          simp
    | some pv =>
      simp only [trendGrowthRows] at hok
      by_cases hz : (pv == 0) = true
      · rw [if_pos hz] at hok; cases hok
      · rw [if_neg hz] at hok
        cases hrec : trendGrowthRows (some r.total_revenue) rest with
        | error e => rw [hrec] at hok; cases hok
        | ok l2 =>
          rw [hrec] at hok
          cases hok
          rcases ih (some r.total_revenue) l2 hrec with ⟨hlen, hall⟩
          refine ⟨by simpa using hlen, ?_⟩
          intro i h
          cases i with
          | zero => simp
          | succ j =>
            have hj : j < l2.length := by simpa using h
            have := hall j hj
            simp only [List.length_cons, List.get] at this ⊢
            rw [this]
            simp

/-- Filtering a tagged blocked list on a key that occurs once keeps
exactly the owner's block. -/
theorem filter_key_flatMap {α β κ : Type} [BEq κ] [LawfulBEq κ]
    [DecidableEq κ] (key : α → κ) (cells : α → List β) (l : List α) (u : α)
    (hu : u ∈ l) (hnd : (l.map key).Nodup) :
    (l.flatMap (fun a => (cells a).map (fun c => (a, c)))).filter
        (fun r => key r.1 == key u) =
      (cells u).map (fun c => (u, c)) := by
  rw [List.filter_flatMap]
  have hmain := flatMap_single key
    (fun a => ((cells a).map (fun c => (a, c))).filter
      (fun r => key r.1 == key u)) l u hu hnd ?_
  · rw [hmain]
    apply List.filter_eq_self.mpr
    intro r hr
    rcases List.mem_map.mp hr with ⟨c, _, hEq⟩
    subst hEq
    exact beq_self_eq_true (key u)
  · intro a _ hne
    apply List.filter_eq_nil_iff.mpr
    intro r hr
    rcases List.mem_map.mp hr with ⟨c, _, hEq⟩
    subst hEq
    simp only [beq_iff_eq]
    exact hne

/-- Under a duplicate-free user key list, the users-query bucket of a
stored user's key holds exactly that user's joined rows. -/
theorem usersJoined_filter_key (db : DB) (start endD : Date) (u : User)
    (hnd : (db.users.map userKey).Nodup) (hu : u ∈ db.users) :
    (usersJoined db start endD).filter
        (fun r => userKey r.1 == userKey u) =
      (userJoinCells db start endD u).map (fun c => (u, c)) :=
  filter_key_flatMap userKey (userJoinCells db start endD) db.users u hu hnd

/-- Under a duplicate-free group key list, the groups-query bucket of a
stored group's key holds exactly that group's joined rows. -/
theorem groupsJoined_filter_key (db : DB) (start endD : Date) (g : Group)
    (hnd : (db.groups.map groupKey).Nodup) (hg : g ∈ db.groups) :
    (groupsJoined db start endD).filter
        (fun r => groupKey r.1 == groupKey g) =
      (groupJoinCells db start endD g).map (fun c => (g, c)) :=
  filter_key_flatMap groupKey (groupJoinCells db start endD) db.groups g hg hnd

/-- Every stored user's key occurs among the users-query bucket keys. -/
theorem userKey_mem_joined_keys (db : DB) (start endD : Date) (u : User)
    (hu : u ∈ db.users) :
    userKey u ∈ ((usersJoined db start endD).map (fun r => userKey r.1)).dedup := by
  rw [List.mem_dedup, List.mem_map]
  rcases List.exists_mem_of_ne_nil _ (userJoinCells_ne_nil db start endD u)
    with ⟨c, hc⟩
  exact ⟨(u, c), List.mem_flatMap.mpr ⟨u, hu, List.mem_map_of_mem _ hc⟩, rfl⟩

/-- Bucket keys of the users query are keys of stored users. -/
theorem joined_keys_are_user_keys (db : DB) (start endD : Date)
    {k : Int × String × String}
    (hk : k ∈ ((usersJoined db start endD).map (fun r => userKey r.1)).dedup) :
    ∃ u, u ∈ db.users ∧ userKey u = k := by
  rw [List.mem_dedup, List.mem_map] at hk
  rcases hk with ⟨r, hr, hEq⟩
  rcases List.mem_flatMap.mp hr with ⟨u, hu, hmem⟩
  rcases List.mem_map.mp hmem with ⟨c, _, hc⟩
  subst hc
  exact ⟨u, hu, hEq⟩

/-- Bucket keys of the groups query are keys of stored groups. -/
theorem joined_keys_are_group_keys (db : DB) (start endD : Date)
    {k : Int × String}
    (hk : k ∈ ((groupsJoined db start endD).map (fun r => groupKey r.1)).dedup) :
    ∃ g, g ∈ db.groups ∧ groupKey g = k := by
  rw [List.mem_dedup, List.mem_map] at hk
  rcases hk with ⟨r, hr, hEq⟩
  rcases List.mem_flatMap.mp hr with ⟨g, hg, hmem⟩
  rcases List.mem_map.mp hmem with ⟨c, _, hc⟩
  subst hc
  exact ⟨g, hg, hEq⟩

/-- Every row answered by the users handler is the mapping of a grouped
aggregate row. -/
theorem users_out_mem {db : DB} {today : Date} {p : UsersParams}
    {rows : List UserOutRow} {row : UserOutRow}
    (hok : usersHandler db today p = .ok rows) (hr : row ∈ rows) :
    ∃ a, a ∈ usersAggRows db (resolvedStart p.startDate)
        (resolvedEnd p.endDate today) ∧ row = mapUserRow a := by
  unfold usersHandler at hok
  split at hok
  · cases hok
  · split at hok
    · cases hok
    · cases hok
      rcases List.mem_map.mp hr with ⟨a, ha, hEq⟩
      refine ⟨a, ?_, hEq.symm⟩
      have := List.mem_of_mem_take ha
      exact ((List.perm_insertionSort userRevRel _).mem_iff).mp this

/-- Every row answered by the groups handler is the mapping of a grouped
aggregate row. -/
theorem groups_out_mem {db : DB} {today : Date} {p : GroupsParams}
    {rows : List GroupOutRow} {row : GroupOutRow}
    (hok : groupsHandler db today p = .ok rows) (hr : row ∈ rows) :
    ∃ a, a ∈ groupsAggRows db (resolvedStart p.startDate)
        (resolvedEnd p.endDate today) ∧ row = mapGroupRow a := by
  unfold groupsHandler at hok
  cases hok
  rcases List.mem_map.mp hr with ⟨a, ha, hEq⟩
  refine ⟨a, ?_, hEq.symm⟩
  exact ((List.perm_insertionSort groupRevRel _).mem_iff).mp ha

/-- Every time-series bucket row is built from a non-empty bucket: it
records the truncation of at least one joined sale, counts at least one
sale and carries a non-null revenue sum. -/
theorem tsAggRows_mem_spec {db : DB} {ti : String} {start endD : Date}
    {uid gid : Option Int} {r : TsAggRow}
    (hr : r ∈ tsAggRows db ti start endD uid gid) :
    ∃ s, s ∈ tsMatchRows db start endD uid gid ∧
      truncInterval ti s.date = r.period ∧
      1 ≤ r.sale_count ∧ r.total_revenue ≠ none := by
  simp only [tsAggRows] at hr
  rcases List.mem_map.mp hr with ⟨k, hk, hEq⟩
  have hk2 : k ∈ ((tsMatchRows db start endD uid gid).map
      (fun s => truncInterval ti s.date)).dedup :=
    ((List.perm_insertionSort periodAscRel _).mem_iff).mp hk
  rw [List.mem_dedup, List.mem_map] at hk2
  rcases hk2 with ⟨s, hs, hsk⟩
  have hsb : s ∈ (tsMatchRows db start endD uid gid).filter
      (fun s0 => truncInterval ti s0.date == k) :=
    List.mem_filter.mpr ⟨hs, by rw [hsk]; exact beq_self_eq_true k⟩
  have hne : ((tsMatchRows db start endD uid gid).filter
      (fun s0 => truncInterval ti s0.date == k)) ≠ [] :=
    List.ne_nil_of_mem hsb
  subst hEq
  refine ⟨s, hs, hsk, ?_, ?_⟩
  · simpa using List.length_pos.mpr hne
  · rw [if_neg (fun h => hne (List.isEmpty_iff.mp h))]
    exact Option.some_ne_none _

/-- Every trend stats row records the truncation of at least one stored
sale passing the date filter. -/
theorem trendStats_mem_spec {db : DB} {ti : String} {start endD : Date}
    {r : TrendStatsRow} (hr : r ∈ trendStats db ti start endD) :
    ∃ s, s ∈ db.sales ∧ dateBetween s.date start endD = true ∧
      truncInterval ti s.date = r.period := by
  simp only [trendStats] at hr
  rcases List.mem_map.mp hr with ⟨k, hk, hEq⟩
  have hk2 : k ∈ ((db.sales.filter
      (fun s => dateBetween s.date start endD)).map
      (fun s => truncInterval ti s.date)).dedup :=
    ((List.perm_insertionSort periodAscRel _).mem_iff).mp hk
  rw [List.mem_dedup, List.mem_map] at hk2
  rcases hk2 with ⟨s, hs, hsk⟩
  rcases List.mem_filter.mp hs with ⟨hsdb, hsdate⟩
  subst hEq
  exact ⟨s, hsdb, hsdate, hsk⟩

/-- An invalid or absent interval parameter canonicalizes to `month`. -/
theorem timeIntervalOf_invalid {i : Option String}
    (h : isValidIntervalParam i = false) : timeIntervalOf i = "month" := by
  cases i with
  | none => rfl
  | some s =>
    simp only [isValidIntervalParam] at h
    have hns : ¬(validIntervals.contains s = true) := by
      rw [h]; exact Bool.false_ne_true
    show (if validIntervals.contains s then s else "month") = "month"
    exact if_neg hns

/-- The explicit `month` interval canonicalizes to itself. -/
theorem timeIntervalOf_month : timeIntervalOf (some ("month")) = "month" := by
  simp [timeIntervalOf, validIntervals]

/-! ## Claim theorems -/

/-- C7: in both ranked reports (users and groups), the emitted order is
the `total_revenue DESC NULLS LAST` order: pairwise, a row never
precedes a row it is not `revDescNullsLast`-below — descending among
non-null revenues, and every null-revenue row after every non-null one,
regardless of any direction parameter (none exists).  Stated for the
users report after its `LIMIT`-truncation (`take n` for every `n`) and
for the groups report (no truncation). -/
theorem ranked_rows_desc_nulls_last :
    ∀ (db : DB) (start endD : Date) (n : Nat),
      (((usersSorted db start endD).take n).Pairwise userRevRel) ∧
      ((groupsSorted db start endD).Pairwise groupRevRel) := by
  intro db start endD n
  constructor
  · exact List.Pairwise.sublist (List.take_sublist n _)
      (List.sorted_insertionSort userRevRel (usersAggRows db start endD))
  · exact List.sorted_insertionSort groupRevRel (groupsAggRows db start endD)

/-- C10: every row of the time-series aggregation counts at least one
matching sale and carries a non-null total revenue: buckets with no
matching sale are never emitted (the query only groups the joined,
filtered sale rows), so no zero-filled rows exist. -/
theorem ts_rows_nonempty_buckets :
    ∀ (db : DB) (ti : String) (start endD : Date) (uid gid : Option Int)
      (r : TsAggRow), r ∈ tsAggRows db ti start endD uid gid →
      1 ≤ r.sale_count ∧ r.total_revenue ≠ none := by
  intro db ti start endD uid gid r hr
  rcases tsAggRows_mem_spec hr with ⟨s, _, _, h1, h2⟩
  exact ⟨h1, h2⟩

/-- Witness for C10 at a concrete dataset. -/
theorem ts_rows_nonempty_buckets_witness :
    midMonthAggRow ∈ tsAggRows dbOneMidMonthSale ("month") ⟨2021, 1, 10⟩
        ⟨2021, 2, 28⟩ none none ∧
      (1 ≤ midMonthAggRow.sale_count ∧ midMonthAggRow.total_revenue ≠ none) := by
  have hmem : midMonthAggRow ∈ tsAggRows dbOneMidMonthSale ("month")
      ⟨2021, 1, 10⟩ ⟨2021, 2, 28⟩ none none := by
    simp +decide only [tsAggRows, tsMatchRows, dbOneMidMonthSale, midMonthAggRow,
      dateBetween, dateLe, Date.key, truncInterval, truncDay, truncWeek,
      truncQuarter, truncYear, truncMonth, sumAmounts, round2, roundHalf,
      List.insertionSort, List.orderedInsert, periodAscRel, List.dedup,
      List.pwFilter, List.filter, List.map, List.flatMap, List.foldl]
    norm_num
  exact ⟨hmem, ts_rows_nonempty_buckets dbOneMidMonthSale ("month")
    ⟨2021, 1, 10⟩ ⟨2021, 2, 28⟩ none none midMonthAggRow hmem⟩

/-- C6 (counterexample): with `startDate = 2021-01-10` and a sale on
2021-01-15, the emitted month bucket has period 2021-01-01, which lies
strictly before `startDate` — the truncated period does not fall within
`[startDate, endDate]`. -/
theorem ts_period_outside_range_cex :
    timeSeriesHandler dbOneMidMonthSale todayRef tsParamsMidJan =
        .ok [midMonthOutRow] ∧
      dateLe (resolvedStart tsParamsMidJan.startDate) midMonthOutRow.period =
        false := by
  constructor
  · simp +decide only [timeSeriesHandler, tsUidParam, tsGidParam, truthyParam,
      tsAggRows, tsMatchRows, tsProject, timeIntervalOf, validIntervals,
      resolvedStart, resolvedEnd, dateBetween, dateLe, Date.key, truncInterval,
      truncDay, truncWeek, truncQuarter, truncYear, truncMonth, sumAmounts,
      round2, roundHalf, jsNumOrZero, List.insertionSort, List.orderedInsert,
      periodAscRel, List.dedup, List.pwFilter, List.filter, List.map,
      List.flatMap, List.foldl, Option.getD, dbOneMidMonthSale, tsParamsMidJan,
      todayRef, midMonthOutRow]
    norm_num
  · decide

/-- C6 (amended): every bucket emitted by the time-series aggregation —
and every bucket of the trends stats CTE — has as period the truncation
of at least one stored sale date lying within the inclusive
`[startDate, endDate]` range; the period itself may precede `startDate`
(the truncation rounds down past an unaligned range start). -/
theorem ts_period_from_matching_sale :
    (∀ (db : DB) (ti : String) (start endD : Date) (uid gid : Option Int)
      (r : TsAggRow), r ∈ tsAggRows db ti start endD uid gid →
      ∃ s, s ∈ db.sales ∧ dateBetween s.date start endD = true ∧
        r.period = truncInterval ti s.date) ∧
    (∀ (db : DB) (ti : String) (start endD : Date) (r : TrendStatsRow),
      r ∈ trendStats db ti start endD →
      ∃ s, s ∈ db.sales ∧ dateBetween s.date start endD = true ∧
        r.period = truncInterval ti s.date) := by
  constructor
  · intro db ti start endD uid gid r hr
    rcases tsAggRows_mem_spec hr with ⟨s, hs, hsk, _, _⟩
    rcases tsMatchRows_mem hs with ⟨hsdb, hsdate⟩
    exact ⟨s, hsdb, hsdate, hsk.symm⟩
  · intro db ti start endD r hr
    rcases trendStats_mem_spec hr with ⟨s, hsdb, hsdate, hsk⟩
    exact ⟨s, hsdb, hsdate, hsk.symm⟩

/-- Witness for the amended C6 at a concrete dataset. -/
theorem ts_period_from_matching_sale_witness :
    midMonthAggRow ∈ tsAggRows dbOneMidMonthSale ("month") ⟨2021, 1, 10⟩
        ⟨2021, 2, 28⟩ none none ∧
      ∃ s, s ∈ dbOneMidMonthSale.sales ∧
        dateBetween s.date ⟨2021, 1, 10⟩ ⟨2021, 2, 28⟩ = true ∧
        midMonthAggRow.period = truncInterval ("month") s.date := by
  have hmem : midMonthAggRow ∈ tsAggRows dbOneMidMonthSale ("month")
      ⟨2021, 1, 10⟩ ⟨2021, 2, 28⟩ none none := by
    simp +decide only [tsAggRows, tsMatchRows, dbOneMidMonthSale, midMonthAggRow,
      dateBetween, dateLe, Date.key, truncInterval, truncDay, truncWeek,
      truncQuarter, truncYear, truncMonth, sumAmounts, round2, roundHalf,
      List.insertionSort, List.orderedInsert, periodAscRel, List.dedup,
      List.pwFilter, List.filter, List.map, List.flatMap, List.foldl]
    norm_num
  exact ⟨hmem, ts_period_from_matching_sale.1 dbOneMidMonthSale ("month")
    ⟨2021, 1, 10⟩ ⟨2021, 2, 28⟩ none none midMonthAggRow hmem⟩

/-- C4: a non-numeric `userId` is not rejected with a `BadRequest`
validation failure — the handler parses it optimistically, pushes the
resulting `NaN` as an integer query parameter, and the request dies
inside the query as a generic 500 internal error.  (The embedding has no
`BadRequest` outcome at all: `ApiError.internal` is the only error.) -/
theorem ts_bad_user_id_is_internal_error :
    timeSeriesHandler dbEmpty todayRef tsParamsBadUserId =
      .error .internal := by
  simp +decide only [timeSeriesHandler, tsUidParam, tsGidParam, truthyParam,
    parseIntJs, digitsVal, tsParamsBadUserId, dbEmpty, todayRef]
  simp

/-- C9: an invalid (or absent) `interval` value is silently coerced to
`month` in both the time-series and the trends handlers: the response
equals the response of the same request with `interval=month`, and no
error arises from the interval validation. -/
theorem invalid_interval_coerces_to_month :
    ∀ (db : DB) (today : Date) (p : TsParams) (q : TrendParams),
      isValidIntervalParam p.interval = false →
      isValidIntervalParam q.interval = false →
      timeSeriesHandler db today p =
          timeSeriesHandler db today { p with interval := some ("month") } ∧
        trendsHandler db today q =
          trendsHandler db today { q with interval := some ("month") } := by
  intro db today p q hp hq
  constructor
  · simp only [timeSeriesHandler, timeIntervalOf_invalid hp, timeIntervalOf_month]
    rfl
  · simp only [trendsHandler, timeIntervalOf_invalid hq, timeIntervalOf_month]

/-- Witness for C9 at a concrete invalid interval value. -/
theorem invalid_interval_coerces_to_month_witness :
    isValidIntervalParam tsParamsBadInterval.interval = false ∧
      isValidIntervalParam trendParamsBadInterval.interval = false ∧
      timeSeriesHandler dbTrendTwo todayRef tsParamsBadInterval =
        timeSeriesHandler dbTrendTwo todayRef
          { tsParamsBadInterval with interval := some ("month") } ∧
      trendsHandler dbTrendTwo todayRef trendParamsBadInterval =
        trendsHandler dbTrendTwo todayRef
          { trendParamsBadInterval with interval := some ("month") } := by
  have hp : isValidIntervalParam tsParamsBadInterval.interval = false := by
    decide
  have hq : isValidIntervalParam trendParamsBadInterval.interval = false := by
    decide
  rcases invalid_interval_coerces_to_month dbTrendTwo todayRef
    tsParamsBadInterval trendParamsBadInterval hp hq with ⟨h1, h2⟩
  exact ⟨hp, hq, h1, h2⟩

/-- A joined row of the groups query carrying a sale also carries a
membership (the sale joins through `user_groups`). -/
theorem groupJoinCells_sale_has_ug {db : DB} {start endD : Date}
    {g : Group} {c : Option UserGroup × Option Sale}
    (hc : c ∈ groupJoinCells db start endD g) (sa : Sale)
    (h2 : c.2 = some sa) : ∃ ug, c.1 = some ug := by
  unfold groupJoinCells at hc
  rcases List.mem_flatMap.mp hc with ⟨ug?, _, hcell⟩
  cases ug? with
  | none =>
    rw [List.mem_singleton.mp hcell] at h2
    cases h2
  | some ug =>
    simp only [ugSaleCells] at hcell
    split at hcell
    · rw [List.mem_singleton.mp hcell] at h2
      cases h2
    · rcases List.mem_map.mp hcell with ⟨s, _, hEq⟩
      exact ⟨ug, by rw [← hEq]⟩

/-- The per-member average column is definitionally the strict SQL
division of the revenue sum by the distinct member count. -/
theorem groupAggFor_avg_rep (db : DB) (start endD : Date) (k : Int × String) :
    (groupAggFor db start endD k).avg_revenue_per_member =
      (groupAggFor db start endD k).total_revenue.bind
        (fun t => if (groupAggFor db start endD k).member_count == 0 then none
          else some (t / ((groupAggFor db start endD k).member_count : ℚ))) := rfl

/-- A non-null revenue sum forces at least one distinct member. -/
theorem groupAggFor_mc_pos (db : DB) (start endD : Date) (k : Int × String)
    (h : (groupAggFor db start endD k).total_revenue ≠ none) :
    (groupAggFor db start endD k).member_count ≠ 0 := by
  simp only [groupAggFor] at h ⊢
  intro h0
  rcases hemp : (((groupsJoined db start endD).filter
      (fun r => groupKey r.1 == k)).filterMap (fun r => r.2.2)).isEmpty with _ | _
  · have hne : ((groupsJoined db start endD).filter
        (fun r => groupKey r.1 == k)).filterMap (fun r => r.2.2) ≠ [] := by
      intro hnil
      rw [hnil] at hemp
      cases hemp
    rcases List.exists_mem_of_ne_nil _ hne with ⟨sa, hsa⟩
    rcases List.mem_filterMap.mp hsa with ⟨r, hrR, hr22⟩
    have hrJ : r ∈ groupsJoined db start endD := List.mem_of_mem_filter hrR
    rcases List.mem_flatMap.mp hrJ with ⟨g, _, hrg⟩
    rcases List.mem_map.mp hrg with ⟨c, hcg, hEq⟩
    have hc2 : c.2 = some sa := by rw [← hEq] at hr22; exact hr22
    rcases groupJoinCells_sale_has_ug hcg sa hc2 with ⟨ug, hc1⟩
    have hr21 : r.2.1 = some ug := by rw [← hEq]; exact hc1
    have hugv : ug ∈ ((groupsJoined db start endD).filter
        (fun r => groupKey r.1 == k)).filterMap (fun r => r.2.1) :=
      List.mem_filterMap.mpr ⟨r, hrR, hr21⟩
    have hmem : ug.user_id ∈ ((((groupsJoined db start endD).filter
        (fun r => groupKey r.1 == k)).filterMap (fun r => r.2.1)).map
        (fun ug => ug.user_id)).dedup :=
      List.mem_dedup.mpr (List.mem_map_of_mem _ hugv)
    rw [List.length_eq_zero.mp h0] at hmem
    cases hmem
  · rw [if_pos hemp] at h
    exact h rfl

/-- C3 (amended): in every emitted group row, `avgRevenuePerMember` is a
number, never null: it equals `totalRevenue / memberCount` when
`memberCount > 0`, and equals `0` when `memberCount = 0` (the SQL value
is null there — the division never executes on the null sum — and the
response mapping coerces null to `0`); no error and no infinity arise. -/
theorem groups_avg_per_member_spec :
    ∀ (db : DB) (today : Date) (p : GroupsParams) (rows : List GroupOutRow),
      groupsHandler db today p = .ok rows →
      ∀ row ∈ rows, ∃ t a, row.totalRevenue = some t ∧
        row.avgRevenuePerMember = some a ∧
        (row.memberCount = 0 → a = 0) ∧
        (row.memberCount ≠ 0 → a = t / (row.memberCount : ℚ)) := by
  intro db today p rows hok row hrow
  rcases groups_out_mem hok hrow with ⟨a, ha, hEq⟩
  simp only [groupsAggRows] at ha
  rcases List.mem_map.mp ha with ⟨k, _, hak⟩
  subst hak
  subst hEq
  set start := resolvedStart p.startDate
  set endD := resolvedEnd p.endDate today
  rcases htot : (groupAggFor db start endD k).total_revenue with _ | S
  · refine ⟨0, 0, ?_, ?_, fun _ => rfl, fun _ => (zero_div _).symm⟩
    · simp [mapGroupRow, jsNumOrZero, htot]
    · simp [mapGroupRow, jsNumOrZero, groupAggFor_avg_rep, htot]
  · have hmc : (groupAggFor db start endD k).member_count ≠ 0 :=
      groupAggFor_mc_pos db start endD k (by rw [htot]; exact Option.some_ne_none S)
    refine ⟨S, S / ((groupAggFor db start endD k).member_count : ℚ), ?_, ?_, ?_, ?_⟩
    · simp [mapGroupRow, jsNumOrZero, htot]
    · have hbeq : ((groupAggFor db start endD k).member_count == 0) = false := by
        simpa using hmc
      simp [mapGroupRow, jsNumOrZero, groupAggFor_avg_rep, htot, hbeq]
    · intro h0
      exact absurd h0 hmc
    · intro _
      rfl

/-- C3 (counterexample): a group with no members is emitted with
`memberCount = 0` and `avgRevenuePerMember` equal to the number `0`,
not null (and not an error): the claim's null output does not occur. -/
theorem groups_avg_member_zero_cex :
    groupsHandler dbGroupNoMembers todayRef groupsDefaults =
        .ok [emptyGroupOutRow] ∧
      emptyGroupOutRow.memberCount = 0 ∧
      emptyGroupOutRow.avgRevenuePerMember ≠ none := by
  refine ⟨?_, rfl, by decide⟩
  simp +decide only [groupsHandler, groupsSorted, groupsAggRows, groupAggFor,
    groupKey, groupsJoined, groupJoinCells, groupUgCells, ugSaleCells, mapGroupRow,
    jsNumOrZero, resolvedStart, resolvedEnd, dateBetween, dateLe, Date.key,
    sumAmounts, round2, roundHalf, List.insertionSort, List.orderedInsert,
    groupRevRel, revDescNullsLast, List.dedup, List.pwFilter, List.filter,
    List.map, List.flatMap, List.filterMap, List.foldl, Option.getD,
    Option.bind, dbGroupNoMembers, groupsDefaults, todayRef, emptyGroupOutRow]
  norm_num

/-- Witness for the amended C3 at a concrete dataset with one member. -/
theorem groups_avg_per_member_spec_witness :
    (groupsHandler dbGroupOneMember todayRef groupsDefaults =
        .ok [⟨1, "G", 1, 1, some 30, some 30, some 30⟩]) ∧
      (∃ t a, (⟨1, "G", 1, 1, some 30, some 30, some 30⟩ : GroupOutRow).totalRevenue = some t ∧
        (⟨1, "G", 1, 1, some 30, some 30, some 30⟩ : GroupOutRow).avgRevenuePerMember = some a ∧
        ((⟨1, "G", 1, 1, some 30, some 30, some 30⟩ : GroupOutRow).memberCount = 0 → a = 0) ∧
        ((⟨1, "G", 1, 1, some 30, some 30, some 30⟩ : GroupOutRow).memberCount ≠ 0 →
          a = t / ((⟨1, "G", 1, 1, some 30, some 30, some 30⟩ : GroupOutRow).memberCount : ℚ))) := by
  have hok : groupsHandler dbGroupOneMember todayRef groupsDefaults =
      .ok [⟨1, "G", 1, 1, some 30, some 30, some 30⟩] := by
    simp +decide only [groupsHandler, groupsSorted, groupsAggRows, groupAggFor,
      groupKey, groupsJoined, groupJoinCells, groupUgCells, ugSaleCells, mapGroupRow,
      jsNumOrZero, resolvedStart, resolvedEnd, dateBetween, dateLe, Date.key,
      sumAmounts, round2, roundHalf, List.insertionSort, List.orderedInsert,
      groupRevRel, revDescNullsLast, List.dedup, List.pwFilter, List.filter,
      List.map, List.flatMap, List.filterMap, List.foldl, Option.getD,
      Option.bind, dbGroupOneMember, groupsDefaults, todayRef]
    norm_num
  refine ⟨hok, ?_⟩
  exact groups_avg_per_member_spec dbGroupOneMember todayRef groupsDefaults
    [⟨1, "G", 1, 1, some 30, some 30, some 30⟩] hok
    ⟨1, "G", 1, 1, some 30, some 30, some 30⟩ (List.mem_singleton.mpr rfl)

/-- C1 (amended): in every successful trend response, `growthPercentage`
is null exactly on the first row (the only row with no `LAG` value); on
every later row the division executed on a non-null, nonzero previous
revenue, so the value is a number — no infinity and no NaN.  A zero
previous revenue does not yield a null: it aborts the query
(division-by-zero) and the request fails, see the counterexample. -/
theorem trend_growth_null_iff_first :
    ∀ (db : DB) (today : Date) (p : TrendParams) (rows : List TrendOutRow),
      trendsHandler db today p = .ok rows →
      ∀ i (h : i < rows.length),
        ((rows.get ⟨i, h⟩).growthPercentage = none ↔ i = 0) := by
  intro db today p rows hok i h
  rcases trendGrowthRows_ok _ none rows hok with ⟨_, hall⟩
  rw [hall i h]
  simp

/-- C1 (counterexample): when the previous period's total revenue is
zero (a January bucket holding a single zero-amount sale), the growth
computation is not null — the query raises division-by-zero and the
request ends in the generic 500 error. -/
theorem trend_zero_prev_revenue_errors :
    trendsHandler dbTrendZero todayRef trendDefaults = .error .internal := by
  simp +decide [trendsHandler, trendStats, trendGrowthRows, timeIntervalOf,
    validIntervals, resolvedStart, resolvedEnd, dateBetween, dateLe, Date.key,
    truncInterval, truncDay, truncWeek, truncQuarter, truncYear, truncMonth,
    sumAmounts, round2, roundHalf, List.insertionSort, List.orderedInsert,
    periodAscRel, List.dedup, List.pwFilter, Except.map, Date.mk.injEq,
    dbTrendZero, trendDefaults, todayRef]

/-- Witness for the amended C1 on a successful two-bucket run. -/
theorem trend_growth_null_iff_first_witness :
    trendsHandler dbTrendTwo todayRef trendDefaults = .ok trendTwoRows ∧
      ((trendTwoRows.get ⟨0, by decide⟩).growthPercentage = none ↔ (0 : Nat) = 0) ∧
      ((trendTwoRows.get ⟨1, by decide⟩).growthPercentage = none ↔ (1 : Nat) = 0) := by
  have hok : trendsHandler dbTrendTwo todayRef trendDefaults = .ok trendTwoRows := by
    simp +decide [trendsHandler, trendStats, trendGrowthRows, timeIntervalOf,
      validIntervals, resolvedStart, resolvedEnd, dateBetween, dateLe, Date.key,
      truncInterval, truncDay, truncWeek, truncQuarter, truncYear, truncMonth,
      sumAmounts, round2, roundHalf, List.insertionSort, List.orderedInsert,
      periodAscRel, List.dedup, List.pwFilter, Except.map, Date.mk.injEq,
      dbTrendTwo, trendDefaults, todayRef, trendTwoRows]
    norm_num
  exact ⟨hok,
    trend_growth_null_iff_first dbTrendTwo todayRef trendDefaults trendTwoRows
      hok 0 (by decide),
    trend_growth_null_iff_first dbTrendTwo todayRef trendDefaults trendTwoRows
      hok 1 (by decide)⟩

/-- C2 (amended): a user with no matching sale in the range still yields
a row of the sorted result set (outer grouping; the `LIMIT` may then
truncate it away), with `saleCount = 0`; but its `totalRevenue` and
`averageRevenue` are emitted as the number `0`, not as null: the SQL
aggregates are null and the `parseFloat(x) || 0` mapping coerces them. -/
theorem users_zero_sale_row :
    ∀ (db : DB) (today : Date) (p : UsersParams) (u : User),
      (db.users.map userKey).Nodup → u ∈ db.users →
      db.sales.filter (fun s => s.user_id == u.id &&
        dateBetween s.date (resolvedStart p.startDate)
          (resolvedEnd p.endDate today)) = [] →
      ∃ row, row ∈ usersPreLimit db today p ∧ row.userId = u.id ∧
        row.name = u.name ∧ row.role = u.role ∧ row.saleCount = 0 ∧
        row.totalRevenue = some 0 ∧ row.averageRevenue = some 0 := by
  intro db today p u hnd hu hfil
  set start := resolvedStart p.startDate with hstart
  set endD := resolvedEnd p.endDate today with hendD
  have hsc : userSaleCells db start endD u = [none] := by
    simp only [userSaleCells, hfil]
    rfl
  have hc1 : ∀ c ∈ userJoinCells db start endD u, c.1 = (none : Option Sale) := by
    intro c hc
    unfold userJoinCells at hc
    rw [hsc] at hc
    rcases List.mem_flatMap.mp hc with ⟨s?, hs, hcc⟩
    have hs0 : s? = none := List.mem_singleton.mp hs
    subst hs0
    rcases List.mem_flatMap.mp hcc with ⟨ug?, _, hm⟩
    rcases List.mem_map.mp hm with ⟨g?, _, hEq⟩
    rw [← hEq]
  have hrows : (usersJoined db start endD).filter
      (fun r => userKey r.1 == userKey u) =
      (userJoinCells db start endD u).map (fun c => (u, c)) :=
    usersJoined_filter_key db start endD u hnd hu
  have hsv : ((userJoinCells db start endD u).map
      (fun c => (u, c))).filterMap (fun r => r.2.1) = [] := by
    rw [List.filterMap_map]
    apply List.filterMap_eq_nil_iff.mpr
    intro c hc
    exact hc1 c hc
  have hsorted : userAggFor db start endD (userKey u) ∈ usersSorted db start endD := by
    apply ((List.perm_insertionSort userRevRel _).mem_iff).mpr
    unfold usersAggRows
    exact List.mem_map_of_mem _ (userKey_mem_joined_keys db start endD u hu)
  refine ⟨mapUserRow (userAggFor db start endD (userKey u)),
    List.mem_map_of_mem _ hsorted, rfl, rfl, rfl, ?_, ?_, ?_⟩
  · show (userAggFor db start endD (userKey u)).sale_count = 0
    simp only [userAggFor]
    rw [hrows, hsv]
    rfl
  · show some (jsNumOrZero (userAggFor db start endD (userKey u)).total_revenue) =
      some 0
    simp only [userAggFor]
    rw [hrows, hsv]
    rfl
  · show some (jsNumOrZero (userAggFor db start endD (userKey u)).avg_revenue) =
      some 0
    simp only [userAggFor]
    rw [hrows, hsv]
    rfl

/-- C2 (counterexample): the zero-sale user's emitted row carries the
number `0` in `totalRevenue` and `averageRevenue`, not null: the
claim's null fields do not occur. -/
theorem users_zero_sale_null_cex :
    usersHandler dbOneUserNoSales todayRef usersDefaults =
        .ok [zeroSaleOutRow] ∧
      zeroSaleOutRow.saleCount = 0 ∧
      zeroSaleOutRow.totalRevenue ≠ none ∧
      zeroSaleOutRow.averageRevenue ≠ none := by
  refine ⟨?_, rfl, by decide, by decide⟩
  simp +decide [usersHandler, resolvedLimit, usersSorted, usersAggRows,
    userAggFor, userKey, usersJoined, userJoinCells, userSaleCells,
    userUgCells, ugGroupCells, mapUserRow, jsNumOrZero, userRevRel,
    revDescNullsLast, resolvedStart, resolvedEnd, dateBetween, dateLe,
    Date.key, truncDay, sumAmounts, round2, roundHalf, List.insertionSort,
    List.orderedInsert, List.dedup, List.pwFilter, Date.mk.injEq,
    User.mk.injEq, dbOneUserNoSales, usersDefaults, todayRef, zeroSaleOutRow]

/-- Witness for the amended C2 at a concrete dataset. -/
theorem users_zero_sale_row_witness :
    (dbOneUserNoSales.users.map userKey).Nodup ∧
      (⟨1, "A", "Agent"⟩ : User) ∈ dbOneUserNoSales.users ∧
      dbOneUserNoSales.sales.filter (fun s => s.user_id == (1 : Int) &&
        dateBetween s.date (resolvedStart usersDefaults.startDate)
          (resolvedEnd usersDefaults.endDate todayRef)) = [] ∧
      ∃ row, row ∈ usersPreLimit dbOneUserNoSales todayRef usersDefaults ∧
        row.userId = 1 ∧ row.name = "A" ∧ row.role = "Agent" ∧
        row.saleCount = 0 ∧ row.totalRevenue = some 0 ∧
        row.averageRevenue = some 0 := by
  have h1 : (dbOneUserNoSales.users.map userKey).Nodup := by decide
  have h2 : (⟨1, "A", "Agent"⟩ : User) ∈ dbOneUserNoSales.users := by decide
  have h3 : dbOneUserNoSales.sales.filter
      (fun s => s.user_id == ((⟨1, "A", "Agent"⟩ : User)).id &&
        dateBetween s.date (resolvedStart usersDefaults.startDate)
          (resolvedEnd usersDefaults.endDate todayRef)) = [] := rfl
  exact ⟨h1, h2, h3, users_zero_sale_row dbOneUserNoSales todayRef
    usersDefaults ⟨1, "A", "Agent"⟩ h1 h2 h3⟩

/-- The `json_agg(g.name)` column of a stored user's bucket, one entry
per joined row. -/
theorem userAggFor_groups_agg (db : DB) (start endD : Date) (u : User)
    (hnd : (db.users.map userKey).Nodup) (hu : u ∈ db.users) :
    (userAggFor db start endD (userKey u)).groups_agg =
      (userJoinCells db start endD u).map
        (fun c => c.2.map (fun g => g.name)) := by
  simp only [userAggFor]
  rw [usersJoined_filter_key db start endD u hnd hu, List.map_map]
  rfl

/-- The null-filtered group-name list of one user's joined rows is its
membership name list repeated once per sale-join row. -/
theorem userJoinCells_filterMap_names (db : DB) (start endD : Date) (u : User) :
    (userJoinCells db start endD u).filterMap
        (fun c => c.2.map (fun g => g.name)) =
      (List.replicate (userSaleCells db start endD u).length
        (userGroupNamesList db u)).flatten := by
  unfold userJoinCells
  rw [List.filterMap_flatMap]
  have hinner : ∀ s? : Option Sale,
      ((userUgCells db u).flatMap (fun ug? =>
        (ugGroupCells db ug?).map (fun g? => (s?, g?)))).filterMap
          (fun c => c.2.map (fun g => g.name)) =
        userGroupNamesList db u := by
    intro s?
    rw [List.filterMap_flatMap]
    unfold userGroupNamesList
    congr 1
    funext ug?
    rw [List.filterMap_map]
    rfl
  simp only [hinner]
  exact flatMap_const_eq _ _

/-- C5 (amended): the `groups` field of every emitted user row is the
null-filtered — but not deduplicated — list of joined group names: the
user's membership name list repeated once per sale-join row, so
multiplicities grow with the number of matching sales in the requested
date range.  Only the underlying set of names (`userGroupNamesList`,
which reads no dates) is independent of the date filter. -/
theorem users_groups_not_dedup_spec :
    ∀ (db : DB) (today : Date) (p : UsersParams) (rows : List UserOutRow),
      usersHandler db today p = .ok rows →
      (db.users.map userKey).Nodup →
      ∀ row ∈ rows, ∃ u, u ∈ db.users ∧ row.userId = u.id ∧
        row.groups = (List.replicate
          (userSaleCells db (resolvedStart p.startDate)
            (resolvedEnd p.endDate today) u).length
          (userGroupNamesList db u)).flatten ∧
        (∀ x, x ∈ row.groups ↔ x ∈ userGroupNamesList db u) := by
  intro db today p rows hok hnd row hrow
  rcases users_out_mem hok hrow with ⟨a, ha, hEq⟩
  simp only [usersAggRows] at ha
  rcases List.mem_map.mp ha with ⟨k, hk, hak⟩
  rcases joined_keys_are_user_keys db _ _ hk with ⟨u, hu, hku⟩
  subst hku
  subst hak
  subst hEq
  have hgroups : (mapUserRow (userAggFor db (resolvedStart p.startDate)
      (resolvedEnd p.endDate today) (userKey u))).groups =
      (List.replicate (userSaleCells db (resolvedStart p.startDate)
        (resolvedEnd p.endDate today) u).length
        (userGroupNamesList db u)).flatten := by
    show (userAggFor db (resolvedStart p.startDate)
      (resolvedEnd p.endDate today) (userKey u)).groups_agg.filterMap
        (fun g? => g?) = _
    rw [userAggFor_groups_agg db _ _ u hnd hu, List.filterMap_map]
    exact userJoinCells_filterMap_names db _ _ u
  refine ⟨u, hu, rfl, hgroups, ?_⟩
  intro x
  rw [hgroups]
  have hlen : (userSaleCells db (resolvedStart p.startDate)
      (resolvedEnd p.endDate today) u).length ≠ 0 := by
    intro h0
    exact userSaleCells_ne_nil db _ _ u (List.length_eq_zero.mp h0)
  simp only [List.mem_flatten, List.mem_replicate]
  constructor
  · rintro ⟨l, ⟨_, rfl⟩, hx⟩
    exact hx
  · intro hx
    exact ⟨userGroupNamesList db u, ⟨hlen, rfl⟩, hx⟩

/-- C5 (counterexample): with two matching sales and one group, the
emitted `groups` list is `["G", "G"]` — not deduplicated; and shrinking
the date range to exclude the sales changes the list to `["G"]` — the
list depends on the request's date-range filter. -/
theorem users_groups_not_dedup_cex :
    usersHandler dbUserTwoSalesOneGroup todayRef usersDefaults =
        .ok [dupGroupsOutRow] ∧
      dupGroupsOutRow.groups.dedup ≠ dupGroupsOutRow.groups ∧
      usersHandler dbUserTwoSalesOneGroup todayRef usersNarrow =
        .ok [narrowOutRow] ∧
      narrowOutRow.groups ≠ dupGroupsOutRow.groups := by
  refine ⟨?_, by decide, ?_, by decide⟩
  · simp +decide [usersHandler, resolvedLimit, usersSorted, usersAggRows,
      userAggFor, userKey, usersJoined, userJoinCells, userSaleCells,
      userUgCells, ugGroupCells, mapUserRow, jsNumOrZero, userRevRel,
      revDescNullsLast, resolvedStart, resolvedEnd, dateBetween, dateLe,
      Date.key, truncDay, sumAmounts, round2, roundHalf, List.insertionSort,
      List.orderedInsert, List.dedup, List.pwFilter, Date.mk.injEq,
      User.mk.injEq, dbUserTwoSalesOneGroup, usersDefaults, todayRef,
      dupGroupsOutRow]
    norm_num
  · simp +decide [usersHandler, resolvedLimit, usersSorted, usersAggRows,
      userAggFor, userKey, usersJoined, userJoinCells, userSaleCells,
      userUgCells, ugGroupCells, mapUserRow, jsNumOrZero, userRevRel,
      revDescNullsLast, resolvedStart, resolvedEnd, dateBetween, dateLe,
      Date.key, truncDay, sumAmounts, round2, roundHalf, List.insertionSort,
      List.orderedInsert, List.dedup, List.pwFilter, Date.mk.injEq,
      User.mk.injEq, dbUserTwoSalesOneGroup, usersNarrow, todayRef,
      narrowOutRow]

/-- Witness for the amended C5 at a concrete dataset. -/
theorem users_groups_not_dedup_spec_witness :
    (usersHandler dbUserTwoSalesOneGroup todayRef usersDefaults =
        .ok [dupGroupsOutRow]) ∧
      (dbUserTwoSalesOneGroup.users.map userKey).Nodup ∧
      ∃ u, u ∈ dbUserTwoSalesOneGroup.users ∧ dupGroupsOutRow.userId = u.id ∧
        dupGroupsOutRow.groups = (List.replicate
          (userSaleCells dbUserTwoSalesOneGroup
            (resolvedStart usersDefaults.startDate)
            (resolvedEnd usersDefaults.endDate todayRef) u).length
          (userGroupNamesList dbUserTwoSalesOneGroup u)).flatten ∧
        (∀ x, x ∈ dupGroupsOutRow.groups ↔
          x ∈ userGroupNamesList dbUserTwoSalesOneGroup u) := by
  have hnd : (dbUserTwoSalesOneGroup.users.map userKey).Nodup := by decide
  have hok : usersHandler dbUserTwoSalesOneGroup todayRef usersDefaults =
      .ok [dupGroupsOutRow] := by
    simp +decide [usersHandler, resolvedLimit, usersSorted, usersAggRows,
      userAggFor, userKey, usersJoined, userJoinCells, userSaleCells,
      userUgCells, ugGroupCells, mapUserRow, jsNumOrZero, userRevRel,
      revDescNullsLast, resolvedStart, resolvedEnd, dateBetween, dateLe,
      Date.key, truncDay, sumAmounts, round2, roundHalf, List.insertionSort,
      List.orderedInsert, List.dedup, List.pwFilter, Date.mk.injEq,
      User.mk.injEq, dbUserTwoSalesOneGroup, usersDefaults, todayRef,
      dupGroupsOutRow]
    norm_num
  exact ⟨hok, hnd, users_groups_not_dedup_spec dbUserTwoSalesOneGroup todayRef
    usersDefaults [dupGroupsOutRow] hok hnd dupGroupsOutRow
    (List.mem_singleton.mpr rfl)⟩

/-- The users grouping yields one bucket per distinct user key. -/
theorem usersAggRows_length (db : DB) (start endD : Date) :
    (usersAggRows db start endD).length =
      ((db.users.map userKey).dedup).length := by
  unfold usersAggRows
  rw [List.length_map]
  congr 1
  unfold usersJoined
  rw [List.map_flatMap]
  have hmm : ∀ u : User,
      ((userJoinCells db start endD u).map (fun c => (u, c))).map
        (fun r => userKey r.1) =
      (userJoinCells db start endD u).map (fun _ => userKey u) := by
    intro u
    rw [List.map_map]
    rfl
  simp only [hmm]
  exact dedup_flatMap_const db.users (userJoinCells db start endD) userKey
    (fun u _ => userJoinCells_ne_nil db start endD u)

/-- C8: the users report emits `min(distinct users, limit)` rows, with
`limit` defaulting to 10 when absent; the time-series, groups and trends
reports emit one row per aggregate bucket — no truncation. -/
theorem report_row_counts :
    resolvedLimit none = some 10 ∧
    (∀ (db : DB) (today : Date) (p : UsersParams) (l : Int)
      (rows : List UserOutRow), resolvedLimit p.limit = some l →
      usersHandler db today p = .ok rows →
      rows.length = min ((db.users.map userKey).dedup.length) l.toNat) ∧
    (∀ (db : DB) (today : Date) (p : TsParams) (rows : List TsOutRow),
      timeSeriesHandler db today p = .ok rows →
      rows.length = (tsAggRows db (timeIntervalOf p.interval)
        (resolvedStart p.startDate) (resolvedEnd p.endDate today)
        ((tsUidParam p).bind id) ((tsGidParam p).bind id)).length) ∧
    (∀ (db : DB) (today : Date) (p : GroupsParams) (rows : List GroupOutRow),
      groupsHandler db today p = .ok rows →
      rows.length = (groupsAggRows db (resolvedStart p.startDate)
        (resolvedEnd p.endDate today)).length) ∧
    (∀ (db : DB) (today : Date) (p : TrendParams) (rows : List TrendOutRow),
      trendsHandler db today p = .ok rows →
      rows.length = (trendStats db (timeIntervalOf p.interval)
        (resolvedStart p.startDate) (resolvedEnd p.endDate today)).length) := by
  refine ⟨rfl, ?_, ?_, ?_, ?_⟩
  · intro db today p l rows hres hok
    unfold usersHandler at hok
    rw [hres] at hok
    dsimp only at hok
    split at hok
    · cases hok
    · cases hok
      rw [List.length_map, List.length_take]
      unfold usersSorted
      rw [(List.perm_insertionSort userRevRel _).length_eq,
        usersAggRows_length db _ _, Nat.min_comm]
  · intro db today p rows hok
    unfold timeSeriesHandler at hok
    split at hok
    · cases hok
    · cases hok
      exact List.length_map _ _
  · intro db today p rows hok
    unfold groupsHandler at hok
    cases hok
    rw [List.length_map]
    unfold groupsSorted
    exact (List.perm_insertionSort groupRevRel _).length_eq
  · intro db today p rows hok
    exact (trendGrowthRows_ok _ none rows hok).1

/-- Witness for C8 at a concrete dataset with two users and `limit=1`. -/
theorem report_row_counts_witness :
    resolvedLimit usersLimitOne.limit = some 1 ∧
      usersHandler dbTwoUsers todayRef usersLimitOne =
        .ok [⟨1, "A", "Agent", 1, some 50, some 50, 1, []⟩] ∧
      ([⟨1, "A", "Agent", 1, some 50, some 50, 1, []⟩] :
          List UserOutRow).length =
        min ((dbTwoUsers.users.map userKey).dedup.length) (1 : Int).toNat := by
  have hres : resolvedLimit usersLimitOne.limit = some 1 := by decide
  have hok : usersHandler dbTwoUsers todayRef usersLimitOne =
      .ok [⟨1, "A", "Agent", 1, some 50, some 50, 1, []⟩] := by
    simp +decide [usersHandler, resolvedLimit, parseIntJs, digitsVal,
      usersSorted, usersAggRows, userAggFor, userKey, usersJoined,
      userJoinCells, userSaleCells, userUgCells, ugGroupCells, mapUserRow,
      jsNumOrZero, userRevRel, revDescNullsLast, resolvedStart, resolvedEnd,
      dateBetween, dateLe, Date.key, truncDay, sumAmounts, round2, roundHalf,
      List.insertionSort, List.orderedInsert, List.dedup, List.pwFilter,
      Date.mk.injEq, User.mk.injEq, dbTwoUsers, usersLimitOne, todayRef]
    norm_num
  exact ⟨hres, hok, report_row_counts.2.1 dbTwoUsers todayRef usersLimitOne 1
    [⟨1, "A", "Agent", 1, some 50, some 50, 1, []⟩] hres hok⟩

end ActifAI
